import Mathlib

/-!
Verification of the streaming load-validate-repair pipeline of the
CNPJ-Receita-Federal repository.

Strings from the Python source are modelled as `List Char`; a nullable
pandas cell is `Option (List Char)` (`none` is the NaN/NA cell).  Fallible
Python code (a raised exception) is modelled with `Except`/`Option`.

Sources embedded here:
  * `src/src/validation.py`  — checksum validators, cleaning helpers,
    per-schema `clean`, the secondary-activity array normalizers;
  * `src/src/database_loader.py` — FK validation, the quality gate and
    telemetry/quarantine writes of `process_and_load_file`,
    `fast_load_chunk`;
  * `src/src/state.py` — the run/stage state machine.
-/

namespace CNPJ

/-! ## Checksum validators (`src/src/validation.py`, `_cpf_valid` / `_cnpj_valid`) -/

/-- Python `int(c)` for a single character: a digit parses to its value,
anything else raises `ValueError` (modelled as `none`). -/
def toDigit (c : Char) : Option Nat :=
  if c.isDigit then some (c.toNat - 48) else none

/-- The list comprehension `[int(x) for x in s]`: the whole comprehension
raises (is `none`) as soon as one character is not a digit. -/
def toDigits : List Char → Option (List Nat)
  | [] => some []
  | c :: rest =>
    match toDigit c, toDigits rest with
    | some d, some ds => some (d :: ds)
    | _, _ => none

/-- Check-digit rule: `0 if sm % 11 < 2 else 11 - (sm % 11)`. -/
def checkDigit (sm : Nat) : Nat :=
  if sm % 11 < 2 then 0 else 11 - sm % 11

/-- `sum(nums[i] * (10 - i) for i in range(9))` of `_cpf_valid`. -/
def cpfSum1 (nums : List Nat) : Nat :=
  ((List.range 9).map (fun i => nums.getD i 0 * (10 - i))).sum

/-- `sum(nums[i] * (11 - i) for i in range(10))` of `_cpf_valid`. -/
def cpfSum2 (nums : List Nat) : Nat :=
  ((List.range 10).map (fun i => nums.getD i 0 * (11 - i))).sum

/-- `_cpf_valid` from `src/src/validation.py`.  `Except.error ()` is a
raised `ValueError` (from `int(x)` on a non-digit character). -/
def cpf_valid (s : List Char) : Except Unit Bool :=
  if s.length ≠ 11 ∨ s = List.replicate 11 (s.headD ' ') then .ok false
  else
    match toDigits s with
    | none => .error ()
    | some nums =>
      if nums.getD 9 0 ≠ checkDigit (cpfSum1 nums) then .ok false
      else .ok (decide (nums.getD 10 0 = checkDigit (cpfSum2 nums)))

/-- First weight vector of `_cnpj_valid`. -/
def cnpjW1 : List Nat := [5, 4, 3, 2, 9, 8, 7, 6, 5, 4, 3, 2]

/-- Second weight vector of `_cnpj_valid`. -/
def cnpjW2 : List Nat := [6, 5, 4, 3, 2, 9, 8, 7, 6, 5, 4, 3, 2]

/-- `sum(nums[i] * w1[i] for i in range(12))`. -/
def cnpjSum1 (nums : List Nat) : Nat :=
  ((List.range 12).map (fun i => nums.getD i 0 * cnpjW1.getD i 0)).sum

/-- `sum(nums[i] * w2[i] for i in range(13))`. -/
def cnpjSum2 (nums : List Nat) : Nat :=
  ((List.range 13).map (fun i => nums.getD i 0 * cnpjW2.getD i 0)).sum

/-- `_cnpj_valid` from `src/src/validation.py`. -/
def cnpj_valid (s : List Char) : Except Unit Bool :=
  if s.length ≠ 14 ∨ s = List.replicate 14 (s.headD ' ') then .ok false
  else
    match toDigits s with
    | none => .error ()
    | some nums =>
      if nums.getD 12 0 ≠ checkDigit (cnpjSum1 nums) then .ok false
      else .ok (decide (nums.getD 13 0 = checkDigit (cnpjSum2 nums)))

/-! Specification-side check-digit rule, phrased as in the spec: the
weighted sum of the first `k` digits against an explicit descending
weight vector. -/

/-- Weighted sum of a digit prefix against an explicit weight list
(the spec's "descending weights 10..2 over the first 9 digits"). -/
def specWeightedSum (nums ws : List Nat) : Nat :=
  ((nums.zip ws).map (fun p => p.1 * p.2)).sum

/-- The spec's validity rule for an 11-digit individual identifier. -/
def cpfSpecOk (nums : List Nat) : Prop :=
  nums.getD 9 0 = checkDigit (specWeightedSum (nums.take 9) [10, 9, 8, 7, 6, 5, 4, 3, 2]) ∧
  nums.getD 10 0 = checkDigit (specWeightedSum (nums.take 10) [11, 10, 9, 8, 7, 6, 5, 4, 3, 2])

/-- The spec's validity rule for a 14-digit company identifier. -/
def cnpjSpecOk (nums : List Nat) : Prop :=
  nums.getD 12 0 = checkDigit (specWeightedSum (nums.take 12) cnpjW1) ∧
  nums.getD 13 0 = checkDigit (specWeightedSum (nums.take 13) cnpjW2)

instance (nums : List Nat) : Decidable (cpfSpecOk nums) := by
  unfold cpfSpecOk; infer_instance

instance (nums : List Nat) : Decidable (cnpjSpecOk nums) := by
  unfold cnpjSpecOk; infer_instance

lemma toDigits_eq_map (s : List Char) (h : ∀ c ∈ s, c.isDigit = true) :
    toDigits s = some (s.map (fun c => c.toNat - 48)) := by
  induction s with
  | nil => rfl
  | cons c rest ih =>
    have hc : c.isDigit = true := h c (by simp)
    have hrest := ih (fun x hx => h x (by simp [hx]))
    simp [toDigits, toDigit, hc, hrest]

lemma toDigits_none (s : List Char) (c : Char) (hc : c ∈ s)
    (hnd : c.isDigit = false) : toDigits s = none := by
  induction s with
  | nil => simp at hc
  | cons a rest ih =>
    rcases List.mem_cons.mp hc with h | h
    · subst h
      simp [toDigits, toDigit, hnd]
    · have := ih h
      simp only [toDigits, this]
      cases toDigit a <;> rfl

lemma list_len11 {α : Type} (l : List α) (h : l.length = 11) :
    ∃ a0 a1 a2 a3 a4 a5 a6 a7 a8 a9 a10 : α,
      l = [a0, a1, a2, a3, a4, a5, a6, a7, a8, a9, a10] := by
  rcases l with - | ⟨a0, l⟩
  · exact absurd h (by simp)
  rcases l with - | ⟨a1, l⟩
  · exact absurd h (by simp)
  rcases l with - | ⟨a2, l⟩
  · exact absurd h (by simp)
  rcases l with - | ⟨a3, l⟩
  · exact absurd h (by simp)
  rcases l with - | ⟨a4, l⟩
  · exact absurd h (by simp)
  rcases l with - | ⟨a5, l⟩
  · exact absurd h (by simp)
  rcases l with - | ⟨a6, l⟩
  · exact absurd h (by simp)
  rcases l with - | ⟨a7, l⟩
  · exact absurd h (by simp)
  rcases l with - | ⟨a8, l⟩
  · exact absurd h (by simp)
  rcases l with - | ⟨a9, l⟩
  · exact absurd h (by simp)
  rcases l with - | ⟨a10, l⟩
  · exact absurd h (by simp)
  rcases l with - | ⟨a11, l⟩
  · exact ⟨a0, a1, a2, a3, a4, a5, a6, a7, a8, a9, a10, rfl⟩
  · exact absurd h (by simp)

lemma list_len14 {α : Type} (l : List α) (h : l.length = 14) :
    ∃ a0 a1 a2 a3 a4 a5 a6 a7 a8 a9 a10 a11 a12 a13 : α,
      l = [a0, a1, a2, a3, a4, a5, a6, a7, a8, a9, a10, a11, a12, a13] := by
  rcases l with - | ⟨a0, l⟩
  · exact absurd h (by simp)
  rcases l with - | ⟨a1, l⟩
  · exact absurd h (by simp)
  rcases l with - | ⟨a2, l⟩
  · exact absurd h (by simp)
  rcases l with - | ⟨a3, l⟩
  · exact absurd h (by simp)
  rcases l with - | ⟨a4, l⟩
  · exact absurd h (by simp)
  rcases l with - | ⟨a5, l⟩
  · exact absurd h (by simp)
  rcases l with - | ⟨a6, l⟩
  · exact absurd h (by simp)
  rcases l with - | ⟨a7, l⟩
  · exact absurd h (by simp)
  rcases l with - | ⟨a8, l⟩
  · exact absurd h (by simp)
  rcases l with - | ⟨a9, l⟩
  · exact absurd h (by simp)
  rcases l with - | ⟨a10, l⟩
  · exact absurd h (by simp)
  rcases l with - | ⟨a11, l⟩
  · exact absurd h (by simp)
  rcases l with - | ⟨a12, l⟩
  · exact absurd h (by simp)
  rcases l with - | ⟨a13, l⟩
  · exact absurd h (by simp)
  rcases l with - | ⟨a14, l⟩
  · exact ⟨a0, a1, a2, a3, a4, a5, a6, a7, a8, a9, a10, a11, a12, a13, rfl⟩
  · exact absurd h (by simp)

lemma cpf_branch_iff (nums : List Nat) (h : nums.length = 11) :
    (if nums.getD 9 0 ≠ checkDigit (cpfSum1 nums) then (Except.ok false : Except Unit Bool)
     else Except.ok (decide (nums.getD 10 0 = checkDigit (cpfSum2 nums)))) = Except.ok true
    ↔ cpfSpecOk nums := by
  obtain ⟨n0, n1, n2, n3, n4, n5, n6, n7, n8, n9, n10, hn⟩ := list_len11 nums h
  subst hn
  unfold cpfSpecOk
  rw [show specWeightedSum ([n0,n1,n2,n3,n4,n5,n6,n7,n8,n9,n10].take 9) [10,9,8,7,6,5,4,3,2]
        = cpfSum1 [n0,n1,n2,n3,n4,n5,n6,n7,n8,n9,n10] from rfl,
      show specWeightedSum ([n0,n1,n2,n3,n4,n5,n6,n7,n8,n9,n10].take 10) [11,10,9,8,7,6,5,4,3,2]
        = cpfSum2 [n0,n1,n2,n3,n4,n5,n6,n7,n8,n9,n10] from rfl,
      show [n0,n1,n2,n3,n4,n5,n6,n7,n8,n9,n10].getD 9 0 = n9 from rfl,
      show [n0,n1,n2,n3,n4,n5,n6,n7,n8,n9,n10].getD 10 0 = n10 from rfl]
  by_cases h1 : n9 = checkDigit (cpfSum1 [n0,n1,n2,n3,n4,n5,n6,n7,n8,n9,n10])
  · rw [if_neg (not_not_intro h1)]
    simp only [Except.ok.injEq, decide_eq_true_eq]
    exact ⟨fun h2 => ⟨h1, h2⟩, fun h2 => h2.2⟩
  · rw [if_pos h1]
    constructor
    · intro h2; exact absurd (Except.ok.inj h2) (by decide)
    · rintro ⟨ha, -⟩; exact absurd ha h1

lemma cnpj_branch_iff (nums : List Nat) (h : nums.length = 14) :
    (if nums.getD 12 0 ≠ checkDigit (cnpjSum1 nums) then (Except.ok false : Except Unit Bool)
     else Except.ok (decide (nums.getD 13 0 = checkDigit (cnpjSum2 nums)))) = Except.ok true
    ↔ cnpjSpecOk nums := by
  obtain ⟨n0, n1, n2, n3, n4, n5, n6, n7, n8, n9, n10, n11, n12, n13, hn⟩ := list_len14 nums h
  subst hn
  unfold cnpjSpecOk
  rw [show specWeightedSum ([n0,n1,n2,n3,n4,n5,n6,n7,n8,n9,n10,n11,n12,n13].take 12) cnpjW1
        = cnpjSum1 [n0,n1,n2,n3,n4,n5,n6,n7,n8,n9,n10,n11,n12,n13] from rfl,
      show specWeightedSum ([n0,n1,n2,n3,n4,n5,n6,n7,n8,n9,n10,n11,n12,n13].take 13) cnpjW2
        = cnpjSum2 [n0,n1,n2,n3,n4,n5,n6,n7,n8,n9,n10,n11,n12,n13] from rfl,
      show [n0,n1,n2,n3,n4,n5,n6,n7,n8,n9,n10,n11,n12,n13].getD 12 0 = n12 from rfl,
      show [n0,n1,n2,n3,n4,n5,n6,n7,n8,n9,n10,n11,n12,n13].getD 13 0 = n13 from rfl]
  by_cases h1 : n12 = checkDigit (cnpjSum1 [n0,n1,n2,n3,n4,n5,n6,n7,n8,n9,n10,n11,n12,n13])
  · rw [if_neg (not_not_intro h1)]
    simp only [Except.ok.injEq, decide_eq_true_eq]
    exact ⟨fun h2 => ⟨h1, h2⟩, fun h2 => h2.2⟩
  · rw [if_pos h1]
    constructor
    · intro h2; exact absurd (Except.ok.inj h2) (by decide)
    · rintro ⟨ha, -⟩; exact absurd ha h1

lemma cpf_valid_iff (s : List Char) (hd : ∀ c ∈ s, c.isDigit = true)
    (hlen : s.length = 11) (hne : s ≠ List.replicate 11 (s.headD ' ')) :
    cpf_valid s = .ok true ↔ cpfSpecOk (s.map (fun c => c.toNat - 48)) := by
  have hcond : ¬(s.length ≠ 11 ∨ s = List.replicate 11 (s.headD ' ')) := by
    push_neg; exact ⟨by simp [hlen], hne⟩
  have hmap := toDigits_eq_map s hd
  unfold cpf_valid
  rw [if_neg hcond, hmap]
  exact cpf_branch_iff _ (by simp [hlen])

lemma cnpj_valid_iff (s : List Char) (hd : ∀ c ∈ s, c.isDigit = true)
    (hlen : s.length = 14) (hne : s ≠ List.replicate 14 (s.headD ' ')) :
    cnpj_valid s = .ok true ↔ cnpjSpecOk (s.map (fun c => c.toNat - 48)) := by
  have hcond : ¬(s.length ≠ 14 ∨ s = List.replicate 14 (s.headD ' ')) := by
    push_neg; exact ⟨by simp [hlen], hne⟩
  have hmap := toDigits_eq_map s hd
  unfold cnpj_valid
  rw [if_neg hcond, hmap]
  exact cnpj_branch_iff _ (by simp [hlen])

lemma cpf_valid_wrong_length (s : List Char) (h : s.length ≠ 11) :
    cpf_valid s = .ok false := by
  unfold cpf_valid; rw [if_pos (Or.inl h)]

lemma cnpj_valid_wrong_length (s : List Char) (h : s.length ≠ 14) :
    cnpj_valid s = .ok false := by
  unfold cnpj_valid; rw [if_pos (Or.inl h)]

lemma cpf_valid_all_same (c : Char) :
    cpf_valid (List.replicate 11 c) = .ok false := by
  have h : List.replicate 11 c = List.replicate 11 ((List.replicate 11 c).headD ' ') := rfl
  unfold cpf_valid; rw [if_pos (Or.inr h)]

lemma cnpj_valid_all_same (c : Char) :
    cnpj_valid (List.replicate 14 c) = .ok false := by
  have h : List.replicate 14 c = List.replicate 14 ((List.replicate 14 c).headD ' ') := rfl
  unfold cnpj_valid; rw [if_pos (Or.inr h)]

lemma cpf_valid_digits_no_raise (s : List Char) (hd : ∀ c ∈ s, c.isDigit = true) :
    ∃ b, cpf_valid s = .ok b := by
  unfold cpf_valid
  by_cases hcond : s.length ≠ 11 ∨ s = List.replicate 11 (s.headD ' ')
  · exact ⟨false, by rw [if_pos hcond]⟩
  · rw [if_neg hcond, toDigits_eq_map s hd]
    by_cases h1 : (s.map (fun c => c.toNat - 48)).getD 9 0
        ≠ checkDigit (cpfSum1 (s.map (fun c => c.toNat - 48)))
    · exact ⟨false, if_pos h1⟩
    · exact ⟨_, if_neg h1⟩

lemma cnpj_valid_digits_no_raise (s : List Char) (hd : ∀ c ∈ s, c.isDigit = true) :
    ∃ b, cnpj_valid s = .ok b := by
  unfold cnpj_valid
  by_cases hcond : s.length ≠ 14 ∨ s = List.replicate 14 (s.headD ' ')
  · exact ⟨false, by rw [if_pos hcond]⟩
  · rw [if_neg hcond, toDigits_eq_map s hd]
    by_cases h1 : (s.map (fun c => c.toNat - 48)).getD 12 0
        ≠ checkDigit (cnpjSum1 (s.map (fun c => c.toNat - 48)))
    · exact ⟨false, if_pos h1⟩
    · exact ⟨_, if_neg h1⟩

lemma cpf_valid_nondigit_raises (s : List Char) (c : Char)
    (hlen : s.length = 11) (hne : s ≠ List.replicate 11 (s.headD ' '))
    (hc : c ∈ s) (hnd : c.isDigit = false) :
    cpf_valid s = .error () := by
  have hcond : ¬(s.length ≠ 11 ∨ s = List.replicate 11 (s.headD ' ')) := by
    push_neg; exact ⟨by simp [hlen], hne⟩
  unfold cpf_valid
  rw [if_neg hcond, toDigits_none s c hc hnd]

lemma cnpj_valid_nondigit_raises (s : List Char) (c : Char)
    (hlen : s.length = 14) (hne : s ≠ List.replicate 14 (s.headD ' '))
    (hc : c ∈ s) (hnd : c.isDigit = false) :
    cnpj_valid s = .error () := by
  have hcond : ¬(s.length ≠ 14 ∨ s = List.replicate 14 (s.headD ' ')) := by
    push_neg; exact ⟨by simp [hlen], hne⟩
  unfold cnpj_valid
  rw [if_neg hcond, toDigits_none s c hc hnd]

end CNPJ

/-- C1: for every 11-character digit string that is not all-identical,
`_cpf_valid` accepts iff the two trailing digits equal the check digits
computed with descending weights 10..2 over the first 9 digits and 11..2
over the first 10, under the rule `0 if sum mod 11 < 2 else 11 - (sum mod 11)`;
likewise `_cnpj_valid` for 14-digit strings with weight vectors
`[5,4,3,2,9,8,7,6,5,4,3,2]` and `[6,5,4,3,2,9,8,7,6,5,4,3,2]`; any string
of the wrong length, and any all-identical repetition, is always invalid. -/
theorem c1_checksum_validators :
    (∀ s : List Char, (∀ c ∈ s, c.isDigit = true) → s.length = 11 →
       s ≠ List.replicate 11 (s.headD ' ') →
       (CNPJ.cpf_valid s = .ok true ↔ CNPJ.cpfSpecOk (s.map (fun c => c.toNat - 48)))) ∧
    (∀ s : List Char, (∀ c ∈ s, c.isDigit = true) → s.length = 14 →
       s ≠ List.replicate 14 (s.headD ' ') →
       (CNPJ.cnpj_valid s = .ok true ↔ CNPJ.cnpjSpecOk (s.map (fun c => c.toNat - 48)))) ∧
    (∀ s : List Char, s.length ≠ 11 → CNPJ.cpf_valid s = .ok false) ∧
    (∀ s : List Char, s.length ≠ 14 → CNPJ.cnpj_valid s = .ok false) ∧
    (∀ c : Char, CNPJ.cpf_valid (List.replicate 11 c) = .ok false) ∧
    (∀ c : Char, CNPJ.cnpj_valid (List.replicate 14 c) = .ok false) :=
  ⟨CNPJ.cpf_valid_iff, CNPJ.cnpj_valid_iff,
   CNPJ.cpf_valid_wrong_length, CNPJ.cnpj_valid_wrong_length,
   CNPJ.cpf_valid_all_same, CNPJ.cnpj_valid_all_same⟩

/-- Witness for C1 at concrete identifiers: `52998224725` is a valid CPF,
`11222333000181` a valid CNPJ, `123` has the wrong length, `77777777777777`
is an all-identical repetition. -/
theorem c1_checksum_validators_witness :
    CNPJ.cpf_valid ("52998224725".toList) = .ok true ∧
    CNPJ.cnpj_valid ("11222333000181".toList) = .ok true ∧
    CNPJ.cpf_valid ("123".toList) = .ok false ∧
    CNPJ.cnpj_valid (List.replicate 14 '7') = .ok false := by
  refine ⟨?_, ?_, ?_, ?_⟩
  · exact (c1_checksum_validators.1 _ (by decide) (by decide) (by decide)).mpr (by decide)
  · exact (c1_checksum_validators.2.1 _ (by decide) (by decide) (by decide)).mpr (by decide)
  · exact c1_checksum_validators.2.2.1 _ (by decide)
  · exact c1_checksum_validators.2.2.2.2.2 '7'

/-- C2 counterexample: an input of the correct length that contains a
non-digit character makes the validators raise `ValueError` (modelled as
`Except.error ()`) instead of returning false. -/
theorem c2_nondigit_counterexample :
    CNPJ.cpf_valid ("0000000000a".toList) = .error () ∧
    CNPJ.cnpj_valid ("0000000000000a".toList) = .error () :=
  ⟨rfl, rfl⟩

/-- C2 (amended): wrong-length inputs — digit-only or not — are rejected
without computing any checksum and without raising; digit-only inputs never
raise; but a correct-length, not-all-identical input containing a non-digit
character raises an exception (from `int(x)`) instead of returning false. -/
theorem c2_nondigit_handling :
    (∀ s : List Char, s.length ≠ 11 → CNPJ.cpf_valid s = .ok false) ∧
    (∀ s : List Char, s.length ≠ 14 → CNPJ.cnpj_valid s = .ok false) ∧
    (∀ s : List Char, (∀ c ∈ s, c.isDigit = true) → ∃ b, CNPJ.cpf_valid s = .ok b) ∧
    (∀ s : List Char, (∀ c ∈ s, c.isDigit = true) → ∃ b, CNPJ.cnpj_valid s = .ok b) ∧
    (∀ s : List Char, ∀ c : Char, s.length = 11 → s ≠ List.replicate 11 (s.headD ' ') →
       c ∈ s → c.isDigit = false → CNPJ.cpf_valid s = .error ()) ∧
    (∀ s : List Char, ∀ c : Char, s.length = 14 → s ≠ List.replicate 14 (s.headD ' ') →
       c ∈ s → c.isDigit = false → CNPJ.cnpj_valid s = .error ()) :=
  ⟨CNPJ.cpf_valid_wrong_length, CNPJ.cnpj_valid_wrong_length,
   CNPJ.cpf_valid_digits_no_raise, CNPJ.cnpj_valid_digits_no_raise,
   fun s c h1 h2 h3 h4 => CNPJ.cpf_valid_nondigit_raises s c h1 h2 h3 h4,
   fun s c h1 h2 h3 h4 => CNPJ.cnpj_valid_nondigit_raises s c h1 h2 h3 h4⟩

/-- Witness for C2 at concrete inputs. -/
theorem c2_nondigit_handling_witness :
    CNPJ.cpf_valid ("12a".toList) = .ok false ∧
    (∃ b, CNPJ.cnpj_valid ("11222333000181".toList) = .ok b) ∧
    CNPJ.cpf_valid ("0000000000a".toList) = .error () := by
  refine ⟨?_, ?_, ?_⟩
  · exact c2_nondigit_handling.1 _ (by decide)
  · exact c2_nondigit_handling.2.2.2.1 _ (by decide)
  · exact c2_nondigit_handling.2.2.2.2.1 _ 'a' (by decide) (by decide) (by decide) (by decide)

namespace CNPJ

/-! ## Pipeline state machine (`src/src/state.py`) -/

/-- The fixed stage ordering `STAGES` of `src/src/state.py`. -/
def STAGES : List String := ["check", "download", "extract", "consolidate", "load"]

/-- One run's stage→status JSON object, as an association list. -/
abbrev StageMap := List (String × String)

/-- The whole `runs.json` document: run identifier → stage map. -/
abbrev RunsDoc := List (String × StageMap)

/-- `PipelineState.should_skip`:
`d.get(self.date, {}).get(step, "pending") == "completed"`. -/
def should_skip (doc : RunsDoc) (date : String) (step : String) : Bool :=
  ((((doc.lookup date).getD []).lookup step).getD "pending") == "completed"

/-- `start_run`: `if date not in d: d[date] = {s: "pending" for s in STAGES}`. -/
def start_run (date : String) (doc : RunsDoc) : RunsDoc :=
  if (doc.lookup date).isSome then doc
  else doc ++ [(date, STAGES.map (fun s => (s, "pending")))]

/-- The skip rule as the spec words it: the index of the stored stage in
the fixed ordering is strictly greater than the queried stage's index, or
equal with status `completed`; an unrecognized stage name fails safe. -/
def should_skip_claim (storedStage storedStatus queried : String) : Bool :=
  match STAGES.indexOf? storedStage, STAGES.indexOf? queried with
  | some i, some j => decide (j < i) || (decide (i = j) && storedStatus == "completed")
  | _, _ => false

lemma lookup_append_of_none {α β : Type} [BEq α] (l1 l2 : List (α × β)) (k : α)
    (h : l1.lookup k = none) : (l1 ++ l2).lookup k = l2.lookup k := by
  induction l1 with
  | nil => rfl
  | cons p l ih =>
    by_cases hk : k == p.1
    · simp [List.lookup, hk] at h
    · simp only [List.lookup, hk, List.cons_append] at h ⊢
      exact ih h

lemma should_skip_iff (doc : RunsDoc) (date step : String) :
    should_skip doc date step = true ↔
      ((doc.lookup date).getD []).lookup step = some "completed" := by
  unfold should_skip
  cases h : ((doc.lookup date).getD []).lookup step with
  | none => simp
  | some v => simp [beq_iff_eq]

end CNPJ

/-- C4 counterexample: take a run whose stored state records the later
stage `extract` as `running` and nothing else.  Under the claim's
stage-index rule the earlier stage `download` is skipped (stored index 2 >
queried index 1); the code's `should_skip` does not skip it, because it
only consults the `download` entry itself. -/
theorem c4_should_skip_counterexample :
    CNPJ.should_skip_claim "extract" "running" "download" = true ∧
    CNPJ.should_skip [("R", [("extract", "running")])] "R" "download" = false :=
  ⟨rfl, rfl⟩

/-- C4 (amended): `should_skip(stage)` is true iff the stored map for the
current run records exactly that stage with status `completed` (absent
stages default to `pending`, hence are not skipped; progress of a later
stage never skips an earlier one).  In particular a state where `download`
is `completed` for run R yields `should_skip("download") = true`, and
`start_run` on a new run identifier records every stage as `pending`. -/
theorem c4_should_skip :
    (∀ (doc : CNPJ.RunsDoc) (date : String) (m : CNPJ.StageMap),
        doc.lookup date = some m → m.lookup "download" = some "completed" →
        CNPJ.should_skip doc date "download" = true) ∧
    (∀ (doc : CNPJ.RunsDoc) (date step : String),
        CNPJ.should_skip doc date step = true ↔
          ((doc.lookup date).getD []).lookup step = some "completed") ∧
    (∀ (doc : CNPJ.RunsDoc) (date : String), doc.lookup date = none →
        (CNPJ.start_run date doc).lookup date
          = some (CNPJ.STAGES.map (fun s => (s, "pending")))) ∧
    (∀ (doc : CNPJ.RunsDoc) (date step : String) (m : CNPJ.StageMap),
        doc.lookup date = some m → m.lookup step = none →
        CNPJ.should_skip doc date step = false) := by
  refine ⟨?_, CNPJ.should_skip_iff, ?_, ?_⟩
  · intro doc date m hm hd
    rw [CNPJ.should_skip_iff]
    simp [hm, hd]
  · intro doc date h
    unfold CNPJ.start_run
    rw [h]
    simp only [Option.isSome_none, Bool.false_eq_true, if_false]
    rw [CNPJ.lookup_append_of_none _ _ _ h]
    simp [List.lookup]
  · intro doc date step m hm hs
    unfold CNPJ.should_skip
    simp [hm, hs]

namespace CNPJ

/-! ## Cleaning helpers and the `empresas`/`simples` clean
(`src/src/validation.py`).  A pandas string cell is `Option (List Char)`;
`none` is the missing value (`np.nan`).  `Series.astype(str)` stringifies
a missing value to the three-character string `"nan"`, which is what the
helpers below reproduce. -/

/-- Whitespace characters removed by Python `str.strip()`. -/
def isPySpace (c : Char) : Bool :=
  c == ' ' || c == '\t' || c == '\n' || c == '\r' || c == '\x0b' || c == '\x0c'

/-- Python `str.strip()`: drop whitespace from both ends. -/
def pystrip (s : List Char) : List Char :=
  List.rdropWhile isPySpace (s.dropWhile isPySpace)

/-- `Series.astype(str)` on one cell: `np.nan` stringifies to `"nan"`. -/
def py_str_cell (c : Option (List Char)) : List Char :=
  match c with
  | none => 'n' :: 'a' :: 'n' :: []
  | some v => v

/-- `_strip_empty_to_na` on one cell:
`t = s.astype(str).str.strip(); t.mask(t.eq(""))`. -/
def strip_empty_to_na (c : Option (List Char)) : Option (List Char) :=
  let t := pystrip (py_str_cell c)
  if t = [] then none else some t

/-- `_digits_only` on one cell: `astype(str)` then remove `\D+`. -/
def digits_only (c : Option (List Char)) : List Char :=
  (py_str_cell c).filter Char.isDigit

/-- `_ensure_len` on one cell: keep the digit extraction only when it has
exactly the required length. -/
def ensure_len (c : Option (List Char)) (n : Nat) : Option (List Char) :=
  let d := digits_only c
  if d.length = n then some d else none

/-- The columns of an `empresas` row touched by `EmpresasSchema.clean`. -/
structure EmpresasRow where
  cnpj_basico : Option (List Char)
  razao_social : Option (List Char)
  ente_federativo_responsavel : Option (List Char)
deriving DecidableEq

/-- `EmpresasSchema.clean` on one row (all three columns present; this
schema ignores the repair level). -/
def empresas_clean_row (r : EmpresasRow) : EmpresasRow :=
  { cnpj_basico := ensure_len r.cnpj_basico 8
    razao_social := strip_empty_to_na r.razao_social
    ente_federativo_responsavel := strip_empty_to_na r.ente_federativo_responsavel }

/-- `EmpresasSchema.clean` on a chunk (all helpers act cellwise). -/
def empresas_clean (chunk : List EmpresasRow) : List EmpresasRow :=
  chunk.map empresas_clean_row

/-- `SimplesSchema.clean` on one row (its only touched column). -/
def simples_clean_row (cnpj_basico : Option (List Char)) : Option (List Char) :=
  ensure_len cnpj_basico 8

/-- `SimplesSchema.clean` on a chunk. -/
def simples_clean (chunk : List (Option (List Char))) : List (Option (List Char)) :=
  chunk.map simples_clean_row

/-- The phone/fax/`numero` normalization of `EstabelecimentosSchema.clean`
on one cell: `d = _digits_only(col); col = d.mask(col.astype(str).str.strip().eq(""))`
— the mask tests the original cell, the kept value is the digit extraction. -/
def estab_phone_clean (c : Option (List Char)) : Option (List Char) :=
  if pystrip (py_str_cell c) = [] then none else some (digits_only c)

lemma head?_dropWhile_not (p : Char → Bool) (l : List Char) (a : Char)
    (h : (List.dropWhile p l).head? = some a) : p a = false := by
  induction l with
  | nil => simp [List.dropWhile] at h
  | cons x xs ih =>
    rw [List.dropWhile] at h
    cases hx : p x with
    | true => rw [hx] at h; exact ih h
    | false =>
      rw [hx] at h
      simp only [List.head?] at h
      cases h; exact hx

lemma dropWhile_eq_self_of_head? (p : Char → Bool) (l : List Char)
    (h : ∀ a, l.head? = some a → p a = false) : List.dropWhile p l = l := by
  cases l with
  | nil => rfl
  | cons x xs => rw [List.dropWhile, h x rfl]

lemma head?_append_left {α : Type} (l₁ l₂ : List α) (h : l₁ ≠ []) :
    (l₁ ++ l₂).head? = l₁.head? := by
  cases l₁ with
  | nil => exact absurd rfl h
  | cons x xs => rfl

lemma dropWhile_rdropWhile_dropWhile (p : Char → Bool) (l : List Char) :
    List.dropWhile p (List.rdropWhile p (List.dropWhile p l))
      = List.rdropWhile p (List.dropWhile p l) := by
  rcases ht : List.rdropWhile p (List.dropWhile p l) with _ | ⟨a, t'⟩
  · rfl
  · rw [← ht]
    apply dropWhile_eq_self_of_head?
    intro b hb
    obtain ⟨r, hr⟩ := List.rdropWhile_prefix p (List.dropWhile p l)
    have hne : List.rdropWhile p (List.dropWhile p l) ≠ [] := by rw [ht]; simp
    have : (List.dropWhile p l).head? = some b := by
      rw [← hr, head?_append_left _ _ hne]
      exact hb
    exact head?_dropWhile_not p l b this

lemma pystrip_idem (s : List Char) : pystrip (pystrip s) = pystrip s := by
  unfold pystrip
  rw [dropWhile_rdropWhile_dropWhile, List.rdropWhile_idempotent]

lemma strip_empty_to_na_fix (c : Option (List Char)) (t : List Char)
    (h : strip_empty_to_na c = some t) :
    strip_empty_to_na (some t) = some t := by
  unfold strip_empty_to_na at h ⊢
  by_cases he : pystrip (py_str_cell c) = []
  · rw [if_pos he] at h; cases h
  · rw [if_neg he] at h
    cases h
    rw [show py_str_cell (some (pystrip (py_str_cell c))) = pystrip (py_str_cell c) from rfl,
        pystrip_idem]
    rw [if_neg he]

lemma ensure_len_idem (c : Option (List Char)) (n : Nat) (hn : 0 < n) :
    ensure_len (ensure_len c n) n = ensure_len c n := by
  unfold ensure_len
  by_cases h : (digits_only c).length = n
  · rw [if_pos h]
    have hfix : digits_only (some (digits_only c)) = digits_only c := by
      unfold digits_only py_str_cell
      simp
    rw [hfix, if_pos h]
  · rw [if_neg h]
    have h0 : (digits_only (none : Option (List Char))).length = 0 := rfl
    rw [if_neg (by rw [h0]; omega)]

lemma empresas_clean_row_idem (r : EmpresasRow)
    (h1 : strip_empty_to_na r.razao_social ≠ none)
    (h2 : strip_empty_to_na r.ente_federativo_responsavel ≠ none) :
    empresas_clean_row (empresas_clean_row r) = empresas_clean_row r := by
  obtain ⟨t1, ht1⟩ := Option.ne_none_iff_exists'.mp h1
  obtain ⟨t2, ht2⟩ := Option.ne_none_iff_exists'.mp h2
  unfold empresas_clean_row
  simp only [ht1, ht2]
  rw [ensure_len_idem _ _ (by omega), strip_empty_to_na_fix _ _ ht1,
      strip_empty_to_na_fix _ _ ht2]

lemma digit_not_space (c : Char) (h : c.isDigit = true) : isPySpace c = false := by
  by_contra hne
  have hs : isPySpace c = true := eq_true_of_ne_false hne
  unfold isPySpace at hs
  rcases (by simpa using hs :
      ((((c = ' ' ∨ c = '\t') ∨ c = '\n') ∨ c = '\x0d') ∨ c = '\x0b') ∨ c = '\x0c') with
    ((((h1 | h1) | h1) | h1) | h1) | h1 <;>
    (subst h1; exact absurd h (by decide))

lemma pystrip_of_digits (t : List Char) (h : ∀ c ∈ t, c.isDigit = true) :
    pystrip t = t := by
  unfold pystrip
  have hdrop : t.dropWhile isPySpace = t := by
    apply dropWhile_eq_self_of_head?
    intro a ha
    exact digit_not_space a (h a (List.mem_of_mem_head? ha))
  rw [hdrop]
  rw [List.rdropWhile_eq_self_iff]
  intro hl
  have := List.getLast_mem hl
  rw [digit_not_space _ (h _ this)]
  exact Bool.false_ne_true

lemma estab_phone_clean_idem (c : Option (List Char))
    (h1 : pystrip (py_str_cell c) ≠ []) (h2 : digits_only c ≠ []) :
    estab_phone_clean (estab_phone_clean c) = estab_phone_clean c := by
  have hstep : estab_phone_clean c = some (digits_only c) := by
    unfold estab_phone_clean
    rw [if_neg h1]
  rw [hstep]
  have hall : ∀ x ∈ digits_only c, x.isDigit = true := by
    intro x hx
    unfold digits_only at hx
    exact List.of_mem_filter hx
  unfold estab_phone_clean
  rw [show py_str_cell (some (digits_only c)) = digits_only c from rfl,
    pystrip_of_digits (digits_only c) hall, if_neg h2]
  congr 1
  show (digits_only c).filter Char.isDigit = digits_only c
  unfold digits_only
  simp

end CNPJ

/-- C3 counterexample: the cleaning engine is not idempotent, in two
distinct ways.  For the `empresas` kind, a row whose `razao_social` is the
empty string is nulled by the first pass and the second pass stringifies
that null to `"nan"` (pandas `astype(str)`).  For the `estabelecimentos`
kind, the phone normalization maps a null cell to the empty string on the
first pass (the mask tests the original `"nan"` stringification, not the
emptied digits) and back to null on the second. -/
theorem c3_idempotence_counterexample :
    (CNPJ.empresas_clean (CNPJ.empresas_clean
        [⟨some ("12345678".toList), some [], some ('x' :: [])⟩])
      ≠ CNPJ.empresas_clean [⟨some ("12345678".toList), some [], some ('x' :: [])⟩]) ∧
    CNPJ.estab_phone_clean none = some [] ∧
    CNPJ.estab_phone_clean (CNPJ.estab_phone_clean none) = none ∧
    CNPJ.estab_phone_clean (CNPJ.estab_phone_clean none) ≠ CNPJ.estab_phone_clean none := by
  refine ⟨by decide, by decide, by decide, by decide⟩

/-- C3 (amended): the cleaning engine is not idempotent; idempotence holds
only piecewise.  Re-running the empty-string→null collapse
(`_strip_empty_to_na`) on a null yields the literal string `"nan"`, and
re-running the `estabelecimentos` phone normalization flips a cell that
stripped to empty between null and the empty string.  What does hold: the
`empresas` clean is idempotent on rows whose two collapse outputs are
non-null; the digit-extraction + exact-length pass (`_ensure_len`, hence
the whole `simples` clean) is idempotent unconditionally; and the phone
normalization is idempotent on cells that do not strip to empty and keep
at least one digit. -/
theorem c3_clean_idempotence :
    (∀ chunk : List CNPJ.EmpresasRow,
       (∀ r ∈ chunk, CNPJ.strip_empty_to_na r.razao_social ≠ none ∧
          CNPJ.strip_empty_to_na r.ente_federativo_responsavel ≠ none) →
       CNPJ.empresas_clean (CNPJ.empresas_clean chunk) = CNPJ.empresas_clean chunk) ∧
    (∀ c : Option (List Char), ∀ n : Nat, 0 < n →
       CNPJ.ensure_len (CNPJ.ensure_len c n) n = CNPJ.ensure_len c n) ∧
    (∀ chunk : List (Option (List Char)),
       CNPJ.simples_clean (CNPJ.simples_clean chunk) = CNPJ.simples_clean chunk) ∧
    (∀ c : Option (List Char),
       CNPJ.pystrip (CNPJ.py_str_cell c) ≠ [] → CNPJ.digits_only c ≠ [] →
       CNPJ.estab_phone_clean (CNPJ.estab_phone_clean c) = CNPJ.estab_phone_clean c) := by
  refine ⟨?_, ?_, ?_, CNPJ.estab_phone_clean_idem⟩
  · intro chunk h
    unfold CNPJ.empresas_clean
    rw [List.map_map]
    apply List.map_congr_left
    intro r hr
    exact CNPJ.empresas_clean_row_idem r (h r hr).1 (h r hr).2
  · exact CNPJ.ensure_len_idem
  · intro chunk
    unfold CNPJ.simples_clean
    rw [List.map_map]
    apply List.map_congr_left
    intro c hc
    exact CNPJ.ensure_len_idem c 8 (by omega)

/-- Witness for C3 (amended) at concrete cells. -/
theorem c3_clean_idempotence_witness :
    CNPJ.empresas_clean (CNPJ.empresas_clean
        [⟨some ("12345678".toList), some (" Empresa ".toList), some ('x' :: [])⟩])
      = CNPJ.empresas_clean
        [⟨some ("12345678".toList), some (" Empresa ".toList), some ('x' :: [])⟩] ∧
    CNPJ.ensure_len (CNPJ.ensure_len (some ("12.345-678".toList)) 8) 8
      = CNPJ.ensure_len (some ("12.345-678".toList)) 8 ∧
    CNPJ.estab_phone_clean (CNPJ.estab_phone_clean (some ("111-222".toList)))
      = CNPJ.estab_phone_clean (some ("111-222".toList)) := by
  refine ⟨?_, ?_, ?_⟩
  · exact c3_clean_idempotence.1 _ (by decide)
  · exact c3_clean_idempotence.2.1 _ 8 (by decide)
  · exact c3_clean_idempotence.2.2.2 _ (by decide) (by decide)

namespace CNPJ

/-! ## Quality gate and per-chunk telemetry writes
(`src/src/database_loader.py`, `process_and_load_file`, lines 494-536).
Ratios are modelled in `ℚ`. -/

/-- Columns entered into `triggers` by the changed-ratio loop:
`ratio = int(n)/rows_count`, trigger when `ratio > gate_max_changed_ratio`. -/
def changedTriggers (rows : Nat) (changed : List (String × Nat)) (tChanged : ℚ) :
    List String :=
  (changed.filter (fun p => tChanged < (p.2 : ℚ) / (rows : ℚ))).map Prod.fst

/-- Columns entered by the null-delta loop:
`ratio = abs(int(d))/rows_count`, trigger when `ratio > gate_max_null_delta_ratio`. -/
def deltaTriggers (rows : Nat) (deltas : List (String × Int)) (tNull : ℚ) :
    List String :=
  (deltas.filter (fun p => tNull < |(p.2 : ℚ)| / (rows : ℚ))).map Prod.fst

/-- The keys of the `triggers` dict: changed-ratio columns first, then the
null-delta columns not already present. -/
def gateTriggers (rows : Nat) (changed : List (String × Nat))
    (deltas : List (String × Int)) (tChanged tNull : ℚ) : List String :=
  let ct := changedTriggers rows changed tChanged
  ct ++ (deltaTriggers rows deltas tNull).filter (fun c => !(ct.contains c))

/-- `enable_quality_gates and rows_count >= gate_min_rows`. -/
def gateApplies (enabled : Bool) (minRows rows : Nat) : Bool :=
  enabled && decide (minRows ≤ rows)

/-- A chunk is flagged (quarantined and skipped) iff the gate applies and
`triggers` is non-empty. -/
def chunkFlagged (enabled : Bool) (minRows rows : Nat) (changed : List (String × Nat))
    (deltas : List (String × Int)) (tChanged tNull : ℚ) : Bool :=
  gateApplies enabled minRows rows &&
    !(gateTriggers rows changed deltas tChanged tNull).isEmpty

/-- Number of telemetry records `process_and_load_file` writes for one
chunk: the gate block writes one when it fires; the `else` branch writes
one when the gate does not apply; a chunk that the gate examines and
passes writes none. -/
def telemetryWrites (enabled : Bool) (minRows rows : Nat) (changed : List (String × Nat))
    (deltas : List (String × Int)) (tChanged tNull : ℚ) : Nat :=
  if gateApplies enabled minRows rows = true then
    if gateTriggers rows changed deltas tChanged tNull ≠ [] then 1 else 0
  else 1

/-- The `quality_gate` field carried by the telemetry record of a flagged
chunk: the triggering columns. -/
def telemetryGateField (enabled : Bool) (minRows rows : Nat) (changed : List (String × Nat))
    (deltas : List (String × Int)) (tChanged tNull : ℚ) : Option (List String) :=
  if chunkFlagged enabled minRows rows changed deltas tChanged tNull = true then
    some (gateTriggers rows changed deltas tChanged tNull)
  else none

lemma changedTriggers_eq_nil (rows : Nat) (changed : List (String × Nat)) (tC : ℚ) :
    changedTriggers rows changed tC = [] ↔
      ∀ p ∈ changed, ¬(tC < (p.2 : ℚ) / (rows : ℚ)) := by
  unfold changedTriggers
  rw [List.map_eq_nil_iff, List.filter_eq_nil_iff]
  simp

lemma deltaTriggers_eq_nil (rows : Nat) (deltas : List (String × Int)) (tN : ℚ) :
    deltaTriggers rows deltas tN = [] ↔
      ∀ p ∈ deltas, ¬(tN < |(p.2 : ℚ)| / (rows : ℚ)) := by
  unfold deltaTriggers
  rw [List.map_eq_nil_iff, List.filter_eq_nil_iff]
  simp

lemma gateTriggers_eq_nil (rows : Nat) (changed : List (String × Nat))
    (deltas : List (String × Int)) (tC tN : ℚ) :
    gateTriggers rows changed deltas tC tN = [] ↔
      changedTriggers rows changed tC = [] ∧ deltaTriggers rows deltas tN = [] := by
  unfold gateTriggers
  constructor
  · intro h
    rw [List.append_eq_nil] at h
    refine ⟨h.1, ?_⟩
    have := h.2
    rw [h.1] at this
    simpa using this
  · rintro ⟨h1, h2⟩
    rw [h1, h2]
    rfl

lemma chunkFlagged_iff (enabled : Bool) (minRows rows : Nat)
    (changed : List (String × Nat)) (deltas : List (String × Int)) (tC tN : ℚ) :
    chunkFlagged enabled minRows rows changed deltas tC tN = true ↔
      (enabled = true ∧ minRows ≤ rows ∧
        ((∃ p ∈ changed, tC < (p.2 : ℚ) / (rows : ℚ)) ∨
         (∃ p ∈ deltas, tN < |(p.2 : ℚ)| / (rows : ℚ)))) := by
  unfold chunkFlagged gateApplies
  rw [Bool.and_eq_true, Bool.and_eq_true]
  constructor
  · rintro ⟨⟨he, hm⟩, ht⟩
    refine ⟨he, by simpa using hm, ?_⟩
    by_contra hno
    push_neg at hno
    have hnil : gateTriggers rows changed deltas tC tN = [] := by
      rw [gateTriggers_eq_nil, changedTriggers_eq_nil, deltaTriggers_eq_nil]
      constructor
      · intro p hp
        exact not_lt.mpr (hno.1 p hp)
      · intro p hp
        exact not_lt.mpr (hno.2 p hp)
    rw [hnil] at ht
    simp at ht
  · rintro ⟨he, hm, hex⟩
    refine ⟨⟨he, by simpa using hm⟩, ?_⟩
    have hne : gateTriggers rows changed deltas tC tN ≠ [] := by
      rw [Ne, gateTriggers_eq_nil]
      rintro ⟨h1, h2⟩
      rw [changedTriggers_eq_nil] at h1
      rw [deltaTriggers_eq_nil] at h2
      rcases hex with ⟨p, hp, hlt⟩ | ⟨p, hp, hlt⟩
      · exact h1 p hp hlt
      · exact h2 p hp hlt
    simpa using hne

end CNPJ

/-- C6: for every processed chunk exactly one telemetry record should be
written.  The code violates this: when the gate applies
(`enable_quality_gates` and `rows_count >= gate_min_rows`) and no trigger
fires, the `else` branch is not reached and the constructed
`telemetry_record` is never written — a loaded chunk with zero telemetry
records.  Gate-skipped chunks and chunks below the minimum row count do
emit exactly one record, the former carrying the gate decision. -/
theorem c6_telemetry_once_bug :
    CNPJ.chunkFlagged true 20 100 [] [] (3/10) (3/10) = false ∧
    CNPJ.telemetryWrites true 20 100 [] [] (3/10) (3/10) = 0 ∧
    CNPJ.telemetryWrites true 20 100 [("correio_eletronico", 90)] [] (3/10) (3/10) = 1 ∧
    CNPJ.telemetryGateField true 20 100 [("correio_eletronico", 90)] [] (3/10) (3/10)
      = some ("correio_eletronico" :: []) ∧
    CNPJ.telemetryWrites true 20 10 [] [] (3/10) (3/10) = 1 := by
  refine ⟨rfl, rfl, ?_, ?_, rfl⟩
  · simp only [CNPJ.telemetryWrites, CNPJ.gateApplies, CNPJ.gateTriggers,
      CNPJ.changedTriggers, CNPJ.deltaTriggers]
    norm_num
  · simp only [CNPJ.telemetryGateField, CNPJ.chunkFlagged, CNPJ.gateApplies,
      CNPJ.gateTriggers, CNPJ.changedTriggers, CNPJ.deltaTriggers]
    norm_num

/-- C7: the quality gate is monotone in the changed-ratio threshold —
raising it can only unflag chunks, never flag new ones — and a chunk is
flagged iff the gate is enabled, the chunk has at least the minimum row
count, and some column's changed-ratio strictly exceeds the changed
threshold or some column's absolute null-delta-ratio strictly exceeds the
null-delta threshold. -/
theorem c7_gate_monotone :
    (∀ (enabled : Bool) (minRows rows : Nat) (changed : List (String × Nat))
        (deltas : List (String × Int)) (tC tC' tN : ℚ),
        tC ≤ tC' →
        CNPJ.chunkFlagged enabled minRows rows changed deltas tC' tN = true →
        CNPJ.chunkFlagged enabled minRows rows changed deltas tC tN = true) ∧
    (∀ (enabled : Bool) (minRows rows : Nat) (changed : List (String × Nat))
        (deltas : List (String × Int)) (tC tN : ℚ),
        CNPJ.chunkFlagged enabled minRows rows changed deltas tC tN = true ↔
          (enabled = true ∧ minRows ≤ rows ∧
           ((∃ p ∈ changed, tC < (p.2 : ℚ) / (rows : ℚ)) ∨
            (∃ p ∈ deltas, tN < |(p.2 : ℚ)| / (rows : ℚ))))) := by
  constructor
  · intro enabled minRows rows changed deltas tC tC' tN hle hflag
    rw [CNPJ.chunkFlagged_iff] at hflag ⊢
    obtain ⟨he, hm, hex⟩ := hflag
    refine ⟨he, hm, ?_⟩
    rcases hex with ⟨p, hp, hlt⟩ | h
    · exact Or.inl ⟨p, hp, lt_of_le_of_lt hle hlt⟩
    · exact Or.inr h
  · exact CNPJ.chunkFlagged_iff

/-- Witness for C7: a chunk flagged at threshold 3/10 stays flagged when
the threshold is lowered to 1/10. -/
theorem c7_gate_monotone_witness :
    CNPJ.chunkFlagged true 20 100 [("a", 40)] [] (3/10) (3/10) = true ∧
    CNPJ.chunkFlagged true 20 100 [("a", 40)] [] (1/10) (3/10) = true := by
  have h3 : CNPJ.chunkFlagged true 20 100 [("a", 40)] [] (3/10) (3/10) = true := by
    rw [CNPJ.chunkFlagged_iff]
    exact ⟨rfl, by norm_num, Or.inl ⟨("a", 40), by simp, by push_cast; norm_num⟩⟩
  exact ⟨h3, c7_gate_monotone.1 true 20 100 [("a", 40)] [] (1/10) (3/10) (3/10)
    (by norm_num) h3⟩

/-- Witness for C4: concrete state documents. -/
theorem c4_should_skip_witness :
    CNPJ.should_skip [("R", [("check", "completed"), ("download", "completed")])] "R" "download"
      = true ∧
    (CNPJ.start_run "R2" [("R", [("download", "completed")])]).lookup "R2"
      = some (CNPJ.STAGES.map (fun s => (s, "pending"))) ∧
    CNPJ.should_skip [("R", [("download", "completed")])] "R" "extract" = false := by
  refine ⟨?_, ?_, ?_⟩
  · exact c4_should_skip.1 _ "R" [("check", "completed"), ("download", "completed")] (by decide) (by decide)
  · exact c4_should_skip.2.2.1 _ "R2" (by decide)
  · exact c4_should_skip.2.2.2 _ "R" "extract" [("download", "completed")] (by decide) (by decide)
namespace CNPJ

/-- The strict-mode error payload of `_validate_fk_set`: a bounded sample
of offending values and the violation count. -/
structure FKError where
  sample : List Nat
  count : Nat
deriving DecidableEq

/-- One quarantine record: rejection reason, offending field names, and
the snapshot of the row (its FK cell). -/
structure QRec where
  reason : String
  fields : List String
  row : Option Nat
deriving DecidableEq

/-- Whether a cell passes the FK check: null cells are not violations,
non-null cells must be in the domain set. -/
def fkMatched (valid : List Nat) (w : Option Nat) : Bool :=
  match w with
  | none => true
  | some x => valid.contains x

/-- `mask_invalid = (~isin(valid_set)) & notna()` on one cell. -/
def fkMaskCell (valid : List Nat) (v : Option Nat) : Bool :=
  match v with
  | none => false
  | some x => !(valid.contains x)

/-- `mask_invalid` over the column. -/
def fkMask (col : List (Option Nat)) (valid : List Nat) : List Bool :=
  col.map (fkMaskCell valid)

/-- The offending values `df.loc[mask_invalid, column]`. -/
def fkInvalidValues (col : List (Option Nat)) (valid : List Nat) : List Nat :=
  ((col.zip (fkMask col valid)).filterMap (fun p => if p.2 then p.1 else none))

/-- `_validate_fk_set`: strict mode raises with a deduplicated sample
(`list(set(...))[:10]`, set enumeration modelled as first-occurrence
dedup) and the count; relaxed mode nulls the unmatched cells in place and
returns the affected-row mask. -/
def validate_fk_set (col : List (Option Nat)) (valid : List Nat) (strict : Bool) :
    Except FKError (List (Option Nat) × List Bool) :=
  let mask := fkMask col valid
  if mask.any id then
    if strict then
      .error ⟨(fkInvalidValues col valid).dedup.take 10, mask.count true⟩
    else
      .ok ((col.zip mask).map (fun p => if p.2 then none else p.1), mask)
  else .ok (col, mask)

/-- The fk block of `process_and_load_file` for one configured column: a
strict-mode error propagates (wrapped) before any load; otherwise one
`fk_violation` quarantine record naming the column is written per
mask-true row, and the (possibly nulled) rows continue to the load.
`_validate_fk_set` nulls the unmatched cells in place before the caller
snapshots `chunk.loc[mask]`, so each record carries the already-nulled
row, not the offending value. -/
def process_fk_column (label : String) (col : List (Option Nat)) (valid : List Nat)
    (strict : Bool) : Except FKError (List (Option Nat) × List QRec) :=
  match validate_fk_set col valid strict with
  | .error e => .error e
  | .ok (newCol, mask) =>
    .ok (newCol,
      (newCol.zip mask).filterMap
        (fun p => if p.2 then some ⟨"fk_violation", label :: [], p.1⟩ else none))

/-- Rows of the chunk that reach `fast_load_chunk`: none when the
strict-mode validation error aborts the chunk. -/
def fk_loaded_rows (r : Except FKError (List (Option Nat) × List QRec)) :
    List (Option Nat) :=
  match r with
  | .error _ => []
  | .ok (rows, _) => rows

lemma fkMaskCell_not_matched (valid : List Nat) (v : Option Nat) :
    fkMaskCell valid v = !(fkMatched valid v) := by
  cases v <;> rfl

lemma fkMask_all_matched (valid : List Nat) (l : List (Option Nat))
    (h : ∀ u ∈ l, fkMatched valid u = true) :
    fkMask l valid = List.replicate l.length false := by
  induction l with
  | nil => rfl
  | cons x xs ih =>
    have hx : fkMatched valid x = true := h x (by simp)
    have hxs := ih (fun u hu => h u (by simp [hu]))
    unfold fkMask at hxs ⊢
    rw [List.map_cons, fkMaskCell_not_matched, hx, List.length_cons,
      List.replicate_succ, hxs]
    rfl

lemma filterMap_zip_replicate_false {β : Type} (l : List (Option Nat))
    (f : Option Nat × Bool → Option β) (hf : ∀ x, f (x, false) = none) :
    ((l.zip (List.replicate l.length false)).filterMap f) = [] := by
  induction l with
  | nil => rfl
  | cons x xs ih =>
    simp only [List.length_cons, List.replicate_succ, List.zip_cons_cons,
      List.filterMap_cons, hf x]
    exact ih

lemma map_zip_replicate_false (l : List (Option Nat)) :
    ((l.zip (List.replicate l.length false)).map (fun p => if p.2 then none else p.1)) = l := by
  induction l with
  | nil => rfl
  | cons x xs ih =>
    simp only [List.length_cons, List.replicate_succ, List.zip_cons_cons, List.map_cons,
      if_neg (by simp : ¬(false = true))]
    rw [ih]

lemma count_true_replicate_false (n : Nat) :
    (List.replicate n false).count true = 0 := by
  induction n with
  | zero => rfl
  | succ k ih => simp [List.replicate_succ, List.count_cons, ih]

lemma any_replicate_false (n : Nat) : (List.replicate n false).any id = false := by
  induction n with
  | zero => rfl
  | succ k ih => simp [List.replicate_succ, ih]

end CNPJ
namespace CNPJ

lemma fk_mask_shape (valid : List Nat) (pre post : List (Option Nat)) (v : Nat)
    (hv : valid.contains v = false)
    (hpre : ∀ u ∈ pre, fkMatched valid u = true)
    (hpost : ∀ u ∈ post, fkMatched valid u = true) :
    fkMask (pre ++ some v :: post) valid
      = List.replicate pre.length false ++ true :: List.replicate post.length false := by
  have h1 := fkMask_all_matched valid pre hpre
  have h2 := fkMask_all_matched valid post hpost
  unfold fkMask at h1 h2 ⊢
  rw [List.map_append, List.map_cons, h1, h2]
  congr 2
  show (!valid.contains v) = true
  rw [hv]
  rfl

lemma fk_one_bad_pieces (label : String) (valid : List Nat)
    (pre post : List (Option Nat)) (v : Nat)
    (hv : valid.contains v = false)
    (hpre : ∀ u ∈ pre, fkMatched valid u = true)
    (hpost : ∀ u ∈ post, fkMatched valid u = true) :
    (List.replicate pre.length false ++ true :: List.replicate post.length false).any id
        = true ∧
    (List.replicate pre.length false ++ true :: List.replicate post.length false).count true
        = 1 ∧
    fkInvalidValues (pre ++ some v :: post) valid = [v] ∧
    (((pre ++ some v :: post).zip
        (List.replicate pre.length false ++ true :: List.replicate post.length false)).map
          (fun p => if p.2 then none else p.1)) = pre ++ none :: post ∧
    (((pre ++ none :: post).zip
        (List.replicate pre.length false ++ true :: List.replicate post.length false)).filterMap
          (fun p => if p.2 then some (⟨"fk_violation", label :: [], p.1⟩ : QRec) else none))
      = [⟨"fk_violation", label :: [], none⟩] := by
  have hlen : pre.length = (List.replicate pre.length false).length := by simp
  have hzip : (pre ++ some v :: post).zip
        (List.replicate pre.length false ++ true :: List.replicate post.length false)
      = pre.zip (List.replicate pre.length false)
        ++ (some v, true) :: post.zip (List.replicate post.length false) := by
    rw [List.zip_append hlen]
    rfl
  have hzipN : (pre ++ none :: post).zip
        (List.replicate pre.length false ++ true :: List.replicate post.length false)
      = pre.zip (List.replicate pre.length false)
        ++ ((none : Option Nat), true) :: post.zip (List.replicate post.length false) := by
    rw [List.zip_append hlen]
    rfl
  refine ⟨?_, ?_, ?_, ?_, ?_⟩
  · rw [List.any_append, any_replicate_false]
    rfl
  · rw [List.count_append, count_true_replicate_false, List.count_cons,
      count_true_replicate_false]
    rfl
  · unfold fkInvalidValues
    rw [fk_mask_shape valid pre post v hv hpre hpost]
    rw [hzip, List.filterMap_append, filterMap_zip_replicate_false _ _ (fun x => rfl),
      List.filterMap_cons, filterMap_zip_replicate_false _ _ (fun x => rfl)]
    simp
  · rw [hzip, List.map_append, map_zip_replicate_false, List.map_cons,
      map_zip_replicate_false]
    simp
  · rw [hzipN, List.filterMap_append, filterMap_zip_replicate_false _ _ (fun x => rfl),
      List.filterMap_cons, filterMap_zip_replicate_false _ _ (fun x => rfl)]
    simp

end CNPJ
namespace CNPJ

lemma validate_fk_set_one_bad (valid : List Nat) (pre post : List (Option Nat)) (v : Nat)
    (hv : valid.contains v = false)
    (hpre : ∀ u ∈ pre, fkMatched valid u = true)
    (hpost : ∀ u ∈ post, fkMatched valid u = true) :
    validate_fk_set (pre ++ some v :: post) valid true = .error ⟨[v], 1⟩ ∧
    validate_fk_set (pre ++ some v :: post) valid false
      = .ok (pre ++ none :: post,
          List.replicate pre.length false ++ true :: List.replicate post.length false) := by
  have hmask := fk_mask_shape valid pre post v hv hpre hpost
  obtain ⟨hany, hcount, hinv, hmap, -⟩ :=
    fk_one_bad_pieces "x" valid pre post v hv hpre hpost
  constructor
  · unfold validate_fk_set
    rw [hmask]
    dsimp only
    rw [hany]
    simp only [if_pos rfl, if_pos rfl]
    rw [hinv, hcount]
    simp [List.dedup_cons_of_not_mem]
  · unfold validate_fk_set
    rw [hmask]
    dsimp only
    rw [hany]
    simp only [if_pos rfl, Bool.false_eq_true, if_false]
    rw [hmap]
    simp

end CNPJ

/-- C5: for a chunk whose FK column has exactly one unmatched non-null
value: strict mode raises an error carrying a bounded sample of offending
values and the violation count, and zero rows of the chunk are loaded;
relaxed mode nulls exactly that value, still loads the row (the chunk
keeps its length), and emits exactly one quarantine record tagged
`fk_violation` naming that column — the record snapshots the row after
the in-place nulling, so its cell is null. -/
theorem c5_fk_strict_relaxed :
    ∀ (label : String) (valid : List Nat) (pre post : List (Option Nat)) (v : Nat),
      valid.contains v = false →
      (∀ u ∈ pre, CNPJ.fkMatched valid u = true) →
      (∀ u ∈ post, CNPJ.fkMatched valid u = true) →
      (CNPJ.process_fk_column label (pre ++ some v :: post) valid true
          = .error ⟨[v], 1⟩ ∧
       CNPJ.fk_loaded_rows
           (CNPJ.process_fk_column label (pre ++ some v :: post) valid true) = [] ∧
       CNPJ.process_fk_column label (pre ++ some v :: post) valid false
          = .ok (pre ++ none :: post, [⟨"fk_violation", label :: [], none⟩]) ∧
       (CNPJ.fk_loaded_rows
           (CNPJ.process_fk_column label (pre ++ some v :: post) valid false)).length
          = (pre ++ some v :: post).length) := by
  intro label valid pre post v hv hpre hpost
  have hval := CNPJ.validate_fk_set_one_bad valid pre post v hv hpre hpost
  obtain ⟨-, -, -, -, hfm⟩ := CNPJ.fk_one_bad_pieces label valid pre post v hv hpre hpost
  refine ⟨?_, ?_, ?_, ?_⟩
  · unfold CNPJ.process_fk_column
    rw [hval.1]
  · unfold CNPJ.fk_loaded_rows CNPJ.process_fk_column
    rw [hval.1]
  · unfold CNPJ.process_fk_column
    rw [hval.2]
    dsimp only
    rw [hfm]
  · unfold CNPJ.fk_loaded_rows CNPJ.process_fk_column
    rw [hval.2]
    dsimp only
    simp

/-- Witness for C5: a four-row chunk whose third row holds the unmatched
code 999 against the domain set {1, 2}. -/
theorem c5_fk_strict_relaxed_witness :
    CNPJ.process_fk_column "pais_codigo" [some 1, none, some 999, some 2] [1, 2] true
      = .error ⟨[999], 1⟩ ∧
    CNPJ.process_fk_column "pais_codigo" [some 1, none, some 999, some 2] [1, 2] false
      = .ok ([some 1, none, none, some 2],
          [⟨"fk_violation", "pais_codigo" :: [], none⟩]) := by
  have h := c5_fk_strict_relaxed "pais_codigo" [1, 2] [some 1, none] [some 2] 999
    (by decide) (by decide) (by decide)
  exact ⟨h.1, h.2.2.1⟩

namespace CNPJ

/-! ## Bulk loader (`src/src/database_loader.py`, `fast_load_chunk`) -/

/-- A database connection: the rows visible in the destination table, and
the rows staged inside the current uncommitted transaction. -/
structure PGConn (Row : Type) where
  committed : List Row
  pending : List Row

/-- `conn.commit()`: staged rows become visible. -/
def commit {Row : Type} (c : PGConn Row) : PGConn Row :=
  ⟨c.committed ++ c.pending, []⟩

/-- `conn.rollback()`: staged rows are discarded. -/
def rollback {Row : Type} (c : PGConn Row) : PGConn Row :=
  ⟨c.committed, []⟩

/-- Outcome of `cursor.copy_expert` for one chunk: success stages every
row; failure raises after staging an arbitrary prefix of `k` rows inside
the open transaction. -/
inductive CopyOutcome where
  | success : CopyOutcome
  | failure : Nat → String → CopyOutcome

/-- `fast_load_chunk`: run the COPY, `conn.commit()` on success,
`conn.rollback()` and re-raise on any exception.  The result is the
connection state and the re-raised error, if any. -/
def fast_load_chunk {Row : Type} (c : PGConn Row) (chunk : List Row)
    (outcome : CopyOutcome) : PGConn Row × Option String :=
  match outcome with
  | .success => (commit ⟨c.committed, c.pending ++ chunk⟩, none)
  | .failure k e => (rollback ⟨c.committed, c.pending ++ chunk.take k⟩, some e)

end CNPJ

/-- C8: chunk loading is atomic.  Starting from a connection with no open
transaction, `fast_load_chunk` commits exactly the whole chunk iff the
COPY succeeds (no error is raised and the destination gains the chunk's
rows, in order), and on any COPY failure it rolls back and re-raises, so
the destination table is left exactly as before — never with a partial
prefix of the chunk — and no transaction is left open. -/
theorem c8_chunk_atomicity :
    ∀ (Row : Type) (c : CNPJ.PGConn Row) (chunk : List Row) (outcome : CNPJ.CopyOutcome),
      c.pending = [] →
      ((CNPJ.fast_load_chunk c chunk outcome).2 = none ↔ outcome = .success) ∧
      (outcome = .success →
        (CNPJ.fast_load_chunk c chunk outcome).1.committed = c.committed ++ chunk) ∧
      (∀ k e, outcome = .failure k e →
        (CNPJ.fast_load_chunk c chunk outcome).2 = some e ∧
        (CNPJ.fast_load_chunk c chunk outcome).1.committed = c.committed) ∧
      (CNPJ.fast_load_chunk c chunk outcome).1.pending = [] := by
  intro Row c chunk outcome hpend
  cases outcome with
  | success =>
    refine ⟨by simp [CNPJ.fast_load_chunk], ?_, ?_, ?_⟩
    · intro h
      simp [CNPJ.fast_load_chunk, CNPJ.commit, hpend]
    · intro k e h
      cases h
    · simp [CNPJ.fast_load_chunk, CNPJ.commit]
  | failure k e =>
    refine ⟨by simp [CNPJ.fast_load_chunk], ?_, ?_, ?_⟩
    · intro h
      cases h
    · intro k2 e2 h
      cases h
      exact ⟨rfl, rfl⟩
    · simp [CNPJ.fast_load_chunk, CNPJ.rollback]

/-- Witness for C8 on a concrete connection and chunk. -/
theorem c8_chunk_atomicity_witness :
    (CNPJ.fast_load_chunk (⟨[10], []⟩ : CNPJ.PGConn Nat) [20, 30] .success).1.committed
      = [10, 20, 30] ∧
    (CNPJ.fast_load_chunk (⟨[10], []⟩ : CNPJ.PGConn Nat) [20, 30]
        (.failure 1 "copy failed")).1.committed = [10] ∧
    (CNPJ.fast_load_chunk (⟨[10], []⟩ : CNPJ.PGConn Nat) [20, 30]
        (.failure 1 "copy failed")).2 = some "copy failed" := by
  have hs := c8_chunk_atomicity Nat ⟨[10], []⟩ [20, 30] .success rfl
  have hf := c8_chunk_atomicity Nat ⟨[10], []⟩ [20, 30] (.failure 1 "copy failed") rfl
  exact ⟨hs.2.1 rfl, (hf.2.2.1 1 "copy failed" rfl).2, (hf.2.2.1 1 "copy failed" rfl).1⟩

namespace CNPJ

/-! ## Critical-field check and invalid-identifier skip
(`process_and_load_file`, lines 546-599).  A row is its list of cells by
column position. -/

/-- A quarantine record carrying a full row snapshot. -/
structure RowQRec where
  reason : String
  fields : List String
  row : List (Option Nat)
deriving DecidableEq

/-- `chunk[cols].isna().any(axis=1)` on one row, for the critical column
positions. -/
def critNull (critCols : List Nat) (row : List (Option Nat)) : Bool :=
  critCols.any (fun j => (row.getD j none).isNone)

/-- The `critical_fields_null` quarantine records: one per row with a null
critical field; the chunk itself is not modified. -/
def crit_records (critCols : List Nat) (critFields : List String)
    (chunk : List (List (Option Nat))) : List RowQRec :=
  (chunk.filter (critNull critCols)).map
    (fun r => ⟨"critical_fields_null", critFields, r⟩)

/-- The `invalid_cnpj` quarantine records for the `estabelecimentos`
invalid-identifier mask. -/
def invalid_records (chunk : List (List (Option Nat))) (mask : List Bool) : List RowQRec :=
  (chunk.zip mask).filterMap
    (fun p => if p.2 then
        some ⟨"invalid_cnpj", ["cnpj_basico", "cnpj_ordem", "cnpj_dv"], p.1⟩
      else none)

/-- `chunk = chunk.loc[~masks["invalid_cnpj"]]` when the skip flag is on;
otherwise the chunk is unchanged. -/
def rows_after_skip (chunk : List (List (Option Nat))) (mask : List Bool)
    (skip : Bool) : List (List (Option Nat)) :=
  if skip then (chunk.zip mask).filterMap (fun p => if p.2 then none else some p.1)
  else chunk

/-- The quarantine-and-drop section of `process_and_load_file` between the
quality gate and the FK validation: emits `critical_fields_null` records
(record-only), then for `estabelecimentos` emits `invalid_cnpj` records
and optionally drops the masked rows.  Returns the records and the rows
that continue to FK validation and `fast_load_chunk`. -/
def process_rows (critCols : List Nat) (critFields : List String)
    (chunk : List (List (Option Nat))) (invalidMask : Option (List Bool))
    (skip : Bool) : List RowQRec × List (List (Option Nat)) :=
  let cr := crit_records critCols critFields chunk
  match invalidMask with
  | none => (cr, chunk)
  | some mask => (cr ++ invalid_records chunk mask, rows_after_skip chunk mask skip)

end CNPJ

/-- C10: the critical-field check is record-only.  Rows with null critical
fields are quarantined with reason `critical_fields_null` but never
removed, so they are still passed to the bulk loader; the only row drop
before loading is the invalid-CNPJ skip (mask present and flag enabled),
which filters exactly the masked rows. -/
theorem c10_critical_fields_record_only :
    ∀ (critCols : List Nat) (critFields : List String)
      (chunk : List (List (Option Nat))) (invalidMask : Option (List Bool)) (skip : Bool),
      ((invalidMask = none ∨ skip = false) →
        (CNPJ.process_rows critCols critFields chunk invalidMask skip).2 = chunk) ∧
      (∀ mask, invalidMask = some mask → skip = true →
        (CNPJ.process_rows critCols critFields chunk invalidMask skip).2
          = (chunk.zip mask).filterMap (fun p => if p.2 then none else some p.1)) ∧
      (∀ r ∈ chunk, CNPJ.critNull critCols r = true →
        (⟨"critical_fields_null", critFields, r⟩ : CNPJ.RowQRec)
          ∈ (CNPJ.process_rows critCols critFields chunk invalidMask skip).1) := by
  intro critCols critFields chunk invalidMask skip
  refine ⟨?_, ?_, ?_⟩
  · rintro (h | h)
    · subst h; rfl
    · subst h
      cases invalidMask with
      | none => rfl
      | some mask => simp [CNPJ.process_rows, CNPJ.rows_after_skip]
  · intro mask hm hs
    subst hm; subst hs
    simp [CNPJ.process_rows, CNPJ.rows_after_skip]
  · intro r hr hcrit
    have hmem : (⟨"critical_fields_null", critFields, r⟩ : CNPJ.RowQRec)
        ∈ CNPJ.crit_records critCols critFields chunk := by
      unfold CNPJ.crit_records
      exact List.mem_map_of_mem _ (List.mem_filter.mpr ⟨hr, hcrit⟩)
    cases invalidMask with
    | none => exact hmem
    | some mask =>
      simp only [CNPJ.process_rows, List.mem_append]
      exact Or.inl hmem

/-- Witness for C10: a two-row chunk whose first row has a null critical
field; with the skip flag off both rows continue to the loader and one
`critical_fields_null` record is emitted. -/
theorem c10_critical_fields_record_only_witness :
    (CNPJ.process_rows [0] ["cnpj_basico"] [[none, some 5], [some 1, some 2]]
        (some [false, false]) false).2 = [[none, some 5], [some 1, some 2]] ∧
    (⟨"critical_fields_null", ["cnpj_basico"], [none, some 5]⟩ : CNPJ.RowQRec)
      ∈ (CNPJ.process_rows [0] ["cnpj_basico"] [[none, some 5], [some 1, some 2]]
          (some [false, false]) false).1 := by
  have h := c10_critical_fields_record_only [0] ["cnpj_basico"]
    [[none, some 5], [some 1, some 2]] (some [false, false]) false
  exact ⟨h.1 (Or.inr rfl), h.2.2 [none, some 5] (by decide) (by decide)⟩
namespace CNPJ

/-! ## Secondary-activity array normalizers (`src/src/validation.py`,
`_normalize_pg_array_digits` / `_dedup_sort_pg_array`). -/

/-- Splitting at every delimiter occurrence (Python `str.split` /
`re.split` over a single-character class): empty segments are kept. -/
def splitChars (isDelim : Char → Bool) : List Char → List (List Char)
  | [] => [[]]
  | c :: rest =>
    if isDelim c then [] :: splitChars isDelim rest
    else
      match splitChars isDelim rest with
      | [] => [c] :: []
      | t :: ts => (c :: t) :: ts

/-- Python `",".join(pieces)`. -/
def joinComma : List (List Char) → List Char
  | [] => []
  | [p] => p
  | p :: ps => p ++ ',' :: joinComma ps

lemma splitChars_cons_delim (isDelim : Char → Bool) (c : Char) (rest : List Char)
    (h : isDelim c = true) :
    splitChars isDelim (c :: rest) = [] :: splitChars isDelim rest := by
  unfold splitChars
  rw [h]
  simp
  cases rest <;> rfl

lemma splitChars_cons_not_delim (isDelim : Char → Bool) (c : Char) (rest t : List Char)
    (ts : List (List Char)) (h : isDelim c = false)
    (hs : splitChars isDelim rest = t :: ts) :
    splitChars isDelim (c :: rest) = (c :: t) :: ts := by
  unfold splitChars
  rw [h, hs]
  simp

lemma splitChars_ne_nil (isDelim : Char → Bool) (s : List Char) :
    splitChars isDelim s ≠ [] := by
  induction s with
  | nil => simp [splitChars]
  | cons c rest ih =>
    cases hr : splitChars isDelim rest with
    | nil => exact absurd hr ih
    | cons t ts =>
      cases hc : isDelim c with
      | true => rw [splitChars_cons_delim _ _ _ hc]; simp
      | false => rw [splitChars_cons_not_delim _ _ _ _ _ hc hr]; simp

lemma splitChars_no_delim (isDelim : Char → Bool) (p : List Char)
    (h : ∀ c ∈ p, isDelim c = false) : splitChars isDelim p = [p] := by
  induction p with
  | nil => rfl
  | cons c rest ih =>
    have hc : isDelim c = false := h c (by simp)
    have hrest := ih (fun x hx => h x (by simp [hx]))
    rw [splitChars_cons_not_delim _ _ _ _ _ hc hrest]

lemma splitChars_append_delim (isDelim : Char → Bool) (p t : List Char) (d : Char)
    (hd : isDelim d = true) (h : ∀ c ∈ p, isDelim c = false) :
    splitChars isDelim (p ++ d :: t) = p :: splitChars isDelim t := by
  induction p with
  | nil => exact splitChars_cons_delim _ _ _ hd
  | cons c rest ih =>
    have hc : isDelim c = false := h c (by simp)
    have hrest := ih (fun x hx => h x (by simp [hx]))
    show splitChars isDelim (c :: (rest ++ d :: t)) = (c :: rest) :: splitChars isDelim t
    exact splitChars_cons_not_delim _ _ _ _ _ hc hrest

lemma splitChars_joinComma (pieces : List (List Char)) (hne : pieces ≠ [])
    (hfree : ∀ p ∈ pieces, ∀ c ∈ p, (c == ',') = false) :
    splitChars (fun c => c == ',') (joinComma pieces) = pieces := by
  induction pieces with
  | nil => exact absurd rfl hne
  | cons p ps ih =>
    cases ps with
    | nil =>
      show splitChars (fun c => c == ',') p = [p]
      exact splitChars_no_delim _ p (hfree p (by simp))
    | cons q qs =>
      show splitChars (fun c => c == ',') (p ++ ',' :: joinComma (q :: qs)) = p :: q :: qs
      rw [splitChars_append_delim _ p _ ',' (by simp) (hfree p (by simp))]
      rw [ih (by simp) (fun x hx => hfree x (by simp [hx]))]

end CNPJ
namespace CNPJ

/-- Raw token extraction of `_normalize_pg_array_digits`: bracketed
array-text splits on commas (empties kept, each stripped); otherwise split
on `;`/`,` keeping only non-empty stripped pieces. -/
def pg_tokens (xs : List Char) : List (List Char) :=
  if xs.head? = some '{' ∧ xs.getLast? = some '}' then
    (splitChars (fun c => c == ',') ((xs.drop 1).dropLast)).map pystrip
  else
    ((splitChars (fun c => c == ';' || c == ',') xs).map pystrip).filter (· ≠ [])

/-- `clean`: per token, keep only digits, then keep only 7-digit results. -/
def sevenDigitCodes (xs : List Char) : List (List Char) :=
  ((pg_tokens xs).map (fun t => t.filter Char.isDigit)).filter (fun d => d.length = 7)

/-- `_normalize_pg_array_digits` on one cell. -/
def normalize_pg_array_digits (x : Option (List Char)) : Option (List Char) :=
  match x with
  | none => none
  | some s =>
    let xs := pystrip s
    if xs = [] then none
    else
      let clean := sevenDigitCodes xs
      if clean = [] then none
      else some ('{' :: (joinComma clean ++ '}' :: []))

/-- `int(t)` of `_dedup_sort_pg_array` for the unsigned decimal tokens this
pipeline produces: strip, then parse an all-digit non-empty token; any
other token raises (is `none`). -/
def natVal (t : List Char) : Nat :=
  t.foldl (fun acc c => 10 * acc + (c.toNat - 48)) 0

def parsePyInt (t : List Char) : Option Nat :=
  let u := pystrip t
  if u ≠ [] ∧ u.all Char.isDigit then some (natVal u) else none

/-- `str(n)`: decimal rendering, most significant digit first. -/
def digitChar (k : Nat) : Char := Char.ofNat (48 + k)

def renderNatCore (fuel : Nat) (n : Nat) (acc : List Char) : List Char :=
  match fuel with
  | 0 => acc
  | fuel + 1 =>
    if n < 10 then digitChar n :: acc
    else renderNatCore fuel (n / 10) (digitChar (n % 10) :: acc)

def renderNat (n : Nat) : List Char := renderNatCore (n + 1) n []

/-- `_dedup_sort_pg_array` on one cell: `sorted(set(...))` is the
ascending enumeration of the distinct values, modelled as an insertion
sort of the first-occurrence dedup. -/
def dedup_sort_pg_array (x : Option (List Char)) : Option (List Char) :=
  match x with
  | none => none
  | some s =>
    let xs := pystrip s
    if xs = [] then none
    else if ¬(xs.head? = some '{' ∧ xs.getLast? = some '}') then none
    else
      match ((splitChars (fun c => c == ',') ((xs.drop 1).dropLast)).filter
          (· ≠ [])).mapM parsePyInt with
      | none => none
      | some vals =>
        match (vals.dedup).insertionSort (· ≤ ·) with
        | [] => none
        | n :: ns => some ('{' :: (joinComma ((n :: ns).map renderNat) ++ '}' :: []))

/-- Decoding the bracketed array text, as the spec's round-trip claim
reads it: the comma-separated tokens of the body. -/
def decode_pg_array (x : Option (List Char)) : Option (List (List Char)) :=
  match x with
  | none => none
  | some s =>
    if s.head? = some '{' ∧ s.getLast? = some '}' then
      some (splitChars (fun c => c == ',') ((s.drop 1).dropLast))
    else none

end CNPJ
namespace CNPJ

lemma digit_not_comma (c : Char) (h : c.isDigit = true) : (c == ',') = false := by
  by_contra hne
  have hc : c = ',' := beq_iff_eq.mp (eq_true_of_ne_false hne)
  subst hc
  exact absurd h (by decide)

lemma parsePyInt_digits (t : List Char) (hne : t ≠ [])
    (h : ∀ c ∈ t, c.isDigit = true) : parsePyInt t = some (natVal t) := by
  unfold parsePyInt
  rw [pystrip_of_digits t h]
  rw [if_pos ⟨hne, List.all_eq_true.mpr (fun c hc => h c hc)⟩]

end CNPJ
namespace CNPJ

lemma renderNatCore_spec (fuel : Nat) :
    ∀ (n : Nat) (acc : List Char), n < fuel →
      (∀ c ∈ renderNatCore fuel n acc, (∃ k, k < 10 ∧ c = digitChar k) ∨ c ∈ acc) ∧
      renderNatCore fuel n acc ≠ [] := by
  induction fuel with
  | zero => intro n acc h; omega
  | succ f ih =>
    intro n acc h
    unfold renderNatCore
    by_cases hn : n < 10
    · rw [if_pos hn]
      refine ⟨?_, by simp⟩
      intro c hc
      rcases List.mem_cons.mp hc with h1 | h1
      · exact Or.inl ⟨n, hn, h1⟩
      · exact Or.inr h1
    · rw [if_neg hn]
      have hlt : n / 10 < f := by
        have h1 : n / 10 < n := Nat.div_lt_self (by omega) (by omega)
        omega
      obtain ⟨hmem, hne⟩ := ih (n / 10) (digitChar (n % 10) :: acc) hlt
      refine ⟨?_, hne⟩
      intro c hc
      rcases hmem c hc with h1 | h1
      · exact Or.inl h1
      · rcases List.mem_cons.mp h1 with h2 | h2
        · exact Or.inl ⟨n % 10, Nat.mod_lt n (by omega), h2⟩
        · exact Or.inr h2

lemma digitChar_isDigit (k : Nat) (h : k < 10) : (digitChar k).isDigit = true := by
  interval_cases k <;> decide

lemma renderNat_ne_nil (n : Nat) : renderNat n ≠ [] :=
  (renderNatCore_spec (n + 1) n [] (by omega)).2

lemma renderNat_digits (n : Nat) : ∀ c ∈ renderNat n, c.isDigit = true := by
  intro c hc
  rcases (renderNatCore_spec (n + 1) n [] (by omega)).1 c hc with ⟨k, hk, rfl⟩ | h1
  · exact digitChar_isDigit k hk
  · simp at h1

lemma sevenDigitCodes_props (xs : List Char) :
    ∀ p ∈ sevenDigitCodes xs, p ≠ [] ∧ ∀ c ∈ p, c.isDigit = true := by
  intro p hp
  unfold sevenDigitCodes at hp
  obtain ⟨hpmem, hplen⟩ := List.mem_filter.mp hp
  obtain ⟨t, -, rfl⟩ := List.mem_map.mp hpmem
  constructor
  · intro hnil
    rw [hnil] at hplen
    simp at hplen
  · intro c hc
    exact List.of_mem_filter hc

lemma normalize_some (s : List Char) (h : sevenDigitCodes (pystrip s) ≠ []) :
    normalize_pg_array_digits (some s)
      = some ('{' :: (joinComma (sevenDigitCodes (pystrip s)) ++ '}' :: [])) := by
  unfold normalize_pg_array_digits
  dsimp only
  have hxs : pystrip s ≠ [] := by
    intro hx
    rw [hx] at h
    exact h rfl
  rw [if_neg hxs, if_neg h]

lemma mapM_parsePyInt (l : List (List Char))
    (h : ∀ t ∈ l, parsePyInt t = some (natVal t)) :
    l.mapM parsePyInt = some (l.map natVal) := by
  induction l with
  | nil => rfl
  | cons t ts ih =>
    rw [List.mapM_cons, h t (by simp), ih (fun x hx => h x (by simp [hx])), List.map_cons]
    rfl

lemma decode_encoded (pieces : List (List Char)) (hne : pieces ≠ [])
    (hfree : ∀ p ∈ pieces, ∀ c ∈ p, (c == ',') = false) :
    decode_pg_array (some ('{' :: (joinComma pieces ++ '}' :: []))) = some pieces := by
  have hlast : ('{' :: (joinComma pieces ++ '}' :: [])).getLast? = some '}' := by
    rw [show ('{' :: (joinComma pieces ++ '}' :: []))
          = ('{' :: joinComma pieces) ++ ['}'] from by simp,
      List.getLast?_concat]
  unfold decode_pg_array
  dsimp only
  rw [if_pos ⟨rfl, hlast⟩]
  congr 1
  rw [show ('{' :: (joinComma pieces ++ '}' :: [])).drop 1 = joinComma pieces ++ ['}'] from rfl,
    List.dropLast_concat]
  exact splitChars_joinComma pieces hne hfree

end CNPJ
namespace CNPJ

lemma dedup_sort_encoded (clean : List (List Char)) (hne : clean ≠ [])
    (hprops : ∀ p ∈ clean, p ≠ [] ∧ ∀ c ∈ p, c.isDigit = true) :
    dedup_sort_pg_array (some ('{' :: (joinComma clean ++ '}' :: [])))
      = some ('{' :: (joinComma
          ((((clean.map natVal).dedup).insertionSort (· ≤ ·)).map renderNat) ++ '}' :: [])) := by
  have hstrip : pystrip ('{' :: (joinComma clean ++ '}' :: []))
      = '{' :: (joinComma clean ++ '}' :: []) := by
    unfold pystrip
    have hdrop : ('{' :: (joinComma clean ++ '}' :: [])).dropWhile isPySpace
        = '{' :: (joinComma clean ++ '}' :: []) := by
      apply dropWhile_eq_self_of_head?
      intro a ha
      cases ha
      decide
    rw [hdrop,
      show ('{' :: (joinComma clean ++ '}' :: []))
          = ('{' :: joinComma clean) ++ ['}'] from by simp,
      List.rdropWhile_concat_neg _ _ '}' (by decide)]
  have hlast : ('{' :: (joinComma clean ++ '}' :: [])).getLast? = some '}' := by
    rw [show ('{' :: (joinComma clean ++ '}' :: []))
          = ('{' :: joinComma clean) ++ ['}'] from by simp,
      List.getLast?_concat]
  have hsplit : splitChars (fun c => c == ',')
        ((('{' :: (joinComma clean ++ '}' :: [])).drop 1).dropLast) = clean := by
    rw [show ('{' :: (joinComma clean ++ '}' :: [])).drop 1
          = joinComma clean ++ ['}'] from rfl,
      List.dropLast_concat]
    exact splitChars_joinComma clean hne
      (fun p hp c hc => digit_not_comma c ((hprops p hp).2 c hc))
  have hfilter : clean.filter (· ≠ []) = clean :=
    List.filter_eq_self.mpr (fun p hp => by simpa using (hprops p hp).1)
  have hmapm : (clean.filter (· ≠ [])).mapM parsePyInt = some (clean.map natVal) := by
    rw [hfilter]
    exact mapM_parsePyInt clean
      (fun t ht => parsePyInt_digits t (hprops t ht).1 (hprops t ht).2)
  have hvals_ne : clean.map natVal ≠ [] := by
    intro hx
    exact hne (List.map_eq_nil_iff.mp hx)
  have hsort_ne : ((clean.map natVal).dedup).insertionSort (· ≤ ·) ≠ [] := by
    intro hx
    have hlen := congrArg List.length hx
    rw [List.length_insertionSort] at hlen
    have hd : (clean.map natVal).dedup = [] := List.length_eq_zero.mp hlen
    exact hvals_ne ((List.dedup_eq_nil _).mp hd)
  unfold dedup_sort_pg_array
  dsimp only
  rw [hstrip, if_neg (by simp), if_neg (not_not_intro ⟨rfl, hlast⟩), hsplit, hmapm]
  rcases hs : ((clean.map natVal).dedup).insertionSort (· ≤ ·) with _ | ⟨n, ns⟩
  · exact absurd hs hsort_ne
  · dsimp only
    rw [hs]
lemma sort_dedup_ne (l : List Nat) (h : l ≠ []) :
    (l.dedup).insertionSort (· ≤ ·) ≠ [] := by
  intro hx
  have hlen := congrArg List.length hx
  rw [List.length_insertionSort] at hlen
  exact h ((List.dedup_eq_nil _).mp (List.length_eq_zero.mp hlen))

lemma normalize_none (s : List Char) (h : sevenDigitCodes (pystrip s) = []) :
    normalize_pg_array_digits (some s) = none := by
  unfold normalize_pg_array_digits
  dsimp only
  by_cases hxs : pystrip s = []
  · rw [if_pos hxs]
  · rw [if_neg hxs, if_pos h]

end CNPJ

/-- C9 counterexample: the aggressive pass breaks the "same 7-digit-padded
set" round-trip.  Token `0000002` normalizes to `{0000002}`, but
`_dedup_sort_pg_array` re-renders the value numerically as `{2}` (the
repository's own test asserts `{0000002,0000001,0000002}` becomes
`{1,2}`), and the decoded token `2` is not 7-digit-padded. -/
theorem c9_roundtrip_counterexample :
    CNPJ.normalize_pg_array_digits (some ("0000002".toList)) = some ("{0000002}".toList) ∧
    CNPJ.dedup_sort_pg_array (some ("{0000002}".toList)) = some ("{2}".toList) ∧
    CNPJ.decode_pg_array (some ("{2}".toList)) = some ["2".toList] ∧
    "2".toList ≠ "0000002".toList ∧ "2".toList.length ≠ 7 := by
  refine ⟨by decide, by decide, by decide, by decide, by decide⟩

/-- C9 (amended): decoding the bracketed text produced by the
secondary-activity normalizer yields exactly the 7-digit digit-extracted
tokens of the raw input, and null when no valid token remains; in
aggressive mode the list is deduplicated and sorted ascending as numbers
and re-rendered in plain decimal, so the decoded tokens are the decimal
renderings of the distinct code values — without 7-digit zero padding —
rather than the original 7-digit-padded strings. -/
theorem c9_array_roundtrip :
    (∀ s : List Char, CNPJ.sevenDigitCodes (CNPJ.pystrip s) ≠ [] →
        CNPJ.decode_pg_array (CNPJ.normalize_pg_array_digits (some s))
          = some (CNPJ.sevenDigitCodes (CNPJ.pystrip s))) ∧
    (∀ s : List Char, CNPJ.sevenDigitCodes (CNPJ.pystrip s) = [] →
        CNPJ.normalize_pg_array_digits (some s) = none) ∧
    (∀ s : List Char, CNPJ.sevenDigitCodes (CNPJ.pystrip s) ≠ [] →
        CNPJ.decode_pg_array (CNPJ.dedup_sort_pg_array
            (CNPJ.normalize_pg_array_digits (some s)))
          = some ((((((CNPJ.sevenDigitCodes (CNPJ.pystrip s)).map CNPJ.natVal).dedup)
              ).insertionSort (· ≤ ·)).map CNPJ.renderNat)) := by
  refine ⟨?_, CNPJ.normalize_none, ?_⟩
  · intro s h
    rw [CNPJ.normalize_some s h]
    exact CNPJ.decode_encoded _ h
      (fun p hp c hc =>
        CNPJ.digit_not_comma c ((CNPJ.sevenDigitCodes_props _ p hp).2 c hc))
  · intro s h
    rw [CNPJ.normalize_some s h,
      CNPJ.dedup_sort_encoded _ h (CNPJ.sevenDigitCodes_props _)]
    apply CNPJ.decode_encoded
    · intro hx
      exact CNPJ.sort_dedup_ne _ (fun hm => h (List.map_eq_nil_iff.mp hm))
        (List.map_eq_nil_iff.mp hx)
    · intro p hp c hc
      obtain ⟨n, -, rfl⟩ := List.mem_map.mp hp
      exact CNPJ.digit_not_comma c (CNPJ.renderNat_digits n c hc)

/-- Witness for C9 at the repository's own test vector. -/
theorem c9_array_roundtrip_witness :
    CNPJ.decode_pg_array (CNPJ.normalize_pg_array_digits
        (some ("{0000002,0000001,0000002}".toList)))
      = some ["0000002".toList, "0000001".toList, "0000002".toList] ∧
    CNPJ.decode_pg_array (CNPJ.dedup_sort_pg_array (CNPJ.normalize_pg_array_digits
        (some ("{0000002,0000001,0000002}".toList))))
      = some ["1".toList, "2".toList] := by
  constructor
  · exact (c9_array_roundtrip.1 ("{0000002,0000001,0000002}".toList) (by decide)).trans
      (by decide)
  · exact (c9_array_roundtrip.2.2 ("{0000002,0000001,0000002}".toList) (by decide)).trans
      (by decide)
